import Mathlib

/-!
Shallow embedding of `src/gradle.ts` (gradle-dependency-submission).

The module shells out to the gradle CLI and extracts fields from its textual
output.  We embed:

* the pure text-extraction functions (version banner match, semver coercion,
  property matching), translated from the regular expressions in the source;
* the four public operations as small "programs" over an explicit process
  boundary (`Prog`), so that the exact sequence of external invocations and
  the propagation of non-zero exit codes are visible to theorems.

External process execution and logging (`@actions/exec`, `@actions/core`) are
collaborators: an invocation is represented by its `ExecCall` description and
its captured `ExecResult`; logging calls are fire-and-forget and are dropped.
-/

/-- One captured result of an external process invocation
(`exec.getExecOutput` with `ignoreReturnCode: true`). -/
structure ExecResult where
  exitCode : Int
  stdout : String
  stderr : String
deriving DecidableEq, Repr

/-- The description of one external process invocation:
`exec.getExecOutput(tool, args, {cwd, ...})`. -/
structure ExecCall where
  tool : String
  args : List String
  cwd : String
deriving DecidableEq, Repr

/-- Error taxonomy of the module.  The source throws plain `Error`s; the two
throw sites after a non-zero exit code are execution errors, the two throw
sites after a failed structural match are parse errors.  Messages are kept
verbatim from the source. -/
inductive GradleError where
  | executionError (message : String)
  | parseError (message : String)
deriving DecidableEq, Repr

deriving instance DecidableEq for Except

/-- A computation that may issue external process invocations and ends in a
value or a thrown `GradleError`.  Each `exec` node is one call to
`exec.getExecOutput`; its continuation receives the captured result. -/
inductive Prog (α : Type) where
  | pure (value : Except GradleError α)
  | exec (call : ExecCall) (k : ExecResult → Prog α)

/-- Run a program against a list of pre-captured process results (the n-th
invocation receives the n-th result).  Returns the outcome together with the
list of invocations actually issued, or `none` when the result list is too
short. -/
def runProg : Prog α → List ExecResult → Option (Except GradleError α × List ExecCall)
  | .pure v, _ => some (v, [])
  | .exec _ _, [] => none
  | .exec c k, r :: rs => (runProg (k r) rs).map fun p => (p.1, c :: p.2)

/-- Sequencing with exception propagation (`await` on a throwing promise). -/
def bindProg : Prog α → (α → Prog β) → Prog β
  | .pure (.error e), _ => .pure (.error e)
  | .pure (.ok a), f => f a
  | .exec c k, f => .exec c fun r => bindProg (k r) f

/-! ## Semantic-version coercion (`semver.coerce` + strict re-parse)

`singlePropertySupport` runs `semver.coerce(version)` and, when coercion
succeeds, `semver.satisfies(coerced, '>=7.5.0')`.

`coerce` matches the regular expression
`(^|[^\d])(\d{1,16})(?:\.(\d{1,16}))?(?:\.(\d{1,16}))?($|[^\d])`
(leftmost match) and then re-parses `major.minor.patch` with the strict
semver grammar, which rejects a component with leading zeroes or a value
above `Number.MAX_SAFE_INTEGER`.  The backtracking behaviour of the optional
groups collapses to: at a digit-run start, the attempt fails only when the
run is longer than 16 digits; a dotted component whose digit run is longer
than 16 is dropped together with the following components (the literal dot
then satisfies the trailing `[^\d]`). -/

/-- A normalized semantic version as produced by `semver.coerce`
(prerelease/build are dropped by default options). -/
structure SemVer where
  major : Nat
  minor : Nat
  patch : Nat
deriving DecidableEq, Repr

/-- The raw digit strings captured by the coercion regex at one match
position (groups 2, 3, 4). -/
structure CoerceMatch where
  major : List Char
  minor : Option (List Char)
  patch : Option (List Char)
deriving DecidableEq, Repr

/-- Maximal digit run at the head of the list. -/
def digitRun (s : List Char) : List Char := s.takeWhile Char.isDigit

/-- One attempt of the coercion regex at a digit-run start position.
Fails only when the major digit run is longer than 16; a dotted run longer
than 16 drops that component and the rest (see module comment). -/
def coerceAt (s : List Char) : Option CoerceMatch :=
  let r1 := digitRun s
  if r1.length = 0 ∨ 16 < r1.length then none
  else
    let rest1 := s.drop r1.length
    match rest1 with
    | '.' :: t1 =>
      let r2 := digitRun t1
      if r2.length = 0 ∨ 16 < r2.length then some ⟨r1, none, none⟩
      else
        let rest2 := t1.drop r2.length
        match rest2 with
        | '.' :: t2 =>
          let r3 := digitRun t2
          if r3.length = 0 ∨ 16 < r3.length then some ⟨r1, some r2, none⟩
          else some ⟨r1, some r2, some r3⟩
        | _ => some ⟨r1, some r2, none⟩
    | _ => some ⟨r1, none, none⟩

/-- Left-to-right scan for the leftmost viable match position: a digit that
is at the start of the string or preceded by a non-digit (`(^|[^\d])`).
The boolean records whether the previous character was a digit. -/
def coerceScan : List Char → Bool → Option CoerceMatch
  | [], _ => none
  | c :: rest, prevDigit =>
    if c.isDigit && !prevDigit then
      match coerceAt (c :: rest) with
      | some m => some m
      | none => coerceScan rest true
    else coerceScan rest c.isDigit

/-- Numeric value of a digit string. -/
def digitsToNat (l : List Char) : Nat := l.foldl (fun n c => n * 10 + (c.toNat - 48)) 0

/-- Strict semver numeric identifier check applied by the re-parse inside
`coerce`: no leading zero, value at most `Number.MAX_SAFE_INTEGER`. -/
def numericIdOk (l : List Char) : Bool :=
  (match l with
   | '0' :: _ :: _ => false
   | _ => true) && digitsToNat l ≤ 9007199254740991

/-- `semver.coerce(version)`: `none` is JavaScript `null`. -/
def semverCoerce (version : String) : Option SemVer :=
  match coerceScan version.data false with
  | none => none
  | some m =>
    let minor := m.minor.getD ['0']
    let patch := m.patch.getD ['0']
    if numericIdOk m.major && numericIdOk minor && numericIdOk patch then
      some ⟨digitsToNat m.major, digitsToNat minor, digitsToNat patch⟩
    else none

/-- `semver.satisfies(v, '>=7.5.0')` for a coerced (prerelease-free) version:
compare (major, minor, patch) lexicographically against (7, 5, 0). -/
def versionAtLeast750 (v : SemVer) : Bool :=
  decide (7 < v.major ∨ (v.major = 7 ∧ 5 ≤ v.minor))

/-- The capability gate of `singlePropertySupport` applied to an
already-fetched version string (source lines 11-23): coerce, then compare
against the `>=7.5.0` threshold; an uncoercible string throws. -/
def singlePropertySupportOfVersion (version : String) : Except GradleError Bool :=
  match semverCoerce version with
  | some semverVersion =>
    -- below-threshold versions log a warning and return false
    .ok (versionAtLeast750 semverVersion)
  | none => .error (.parseError ("Failed to parse gradle version: " ++ version))

/-! ## Version banner extraction (`fetchGradleVersion`, source line 43)

The source matches the slash-delimited regex literal `[\\S\\s]*?-\n(Gradle )(.+)\n-`.
Inside a regex literal `\\` is an escaped backslash, so the leading class
`[\\S\\s]` matches only the three characters `\`, `S`, `s` — not "any
character" as the analogous template-string pattern would.  Since the lazy
class prefix may always be empty, `String.prototype.match` (which scans all
start positions) succeeds exactly when the core pattern
`-\n` `Gradle ` `(.+)` `\n` `-` occurs somewhere, and the returned capture
group 2 is the one at the leftmost core occurrence (a class run cannot reach
back across an earlier core occurrence, which contains `-` and newlines).
We embed that scan directly. -/

/-- The character class of the JavaScript regex dot `.` (without the dotAll
flag): any character except the four ECMAScript line terminators
LF U+000A, CR U+000D, LINE SEPARATOR U+2028 and PARAGRAPH SEPARATOR
U+2029. -/
def jsDot (c : Char) : Bool :=
  !(c = '\n' || c = '\r' || c = '\u2028' || c = '\u2029')

/-- The group `(.+)\n` followed by `-`: the (nonempty) greedy run of
dot-matching characters at the head, required to be followed by a newline
and a dash.  Because every run character is a non-terminator and `\n` only
matches LF, no shorter backtracked run can ever satisfy the trailing `\n`,
so the greedy run is the only candidate. -/
def bannerValue (s : List Char) : Option (List Char) :=
  let v := s.takeWhile jsDot
  let rest := s.drop v.length
  if v.isEmpty then none
  else if rest.head? = some '\n' ∧ rest.tail.head? = some '-' then some v
  else none

/-- Leftmost occurrence of `-\nGradle <version>\n-`; returns the captured
`<version>` (group 2 of the source regex). -/
def bannerScan : List Char → Option (List Char)
  | [] => none
  | c :: rest =>
    if ('-' :: '\n' :: "Gradle ".data).isPrefixOf (c :: rest) then
      match bannerValue ((c :: rest).drop 9) with
      | some v => some v
      | none => bannerScan rest
    else bannerScan rest

/-- `output.match` against the regex literal `[\\S\\s]*?-\n(Gradle )(.+)\n-`
yielding `match[2]`. -/
def extractGradleVersion (output : String) : Option String :=
  (bannerScan output.data).map fun l => String.mk l

/-! ## Property matching (`retrieveGradleProperty`, source lines 184-194)

Single-property mode matches the whole output against the template-string
regex `[\S\s]*?(<property>: )(.+)\n` (the template `\\S`/`\\s` produce the
any-character class, and the template `\n` is a literal newline): the lazy
any-character prefix makes this the leftmost occurrence of the label
`<property>: ` that is followed by a nonempty dot-run terminated by a
newline; group 2 is that run.  The dot excludes all line terminators
(`jsDot`), so a value containing e.g. a carriage return never matches.

Full-listing mode splits on `'\n'` and matches each line against
`[\S\s]*?(<property>: )(.+)`: within a line (which contains no LF, but may
contain other terminators such as CR) this is the leftmost label occurrence
followed by a nonempty dot-run, group 2 being that greedy run; `.find`
keeps the first line with a match. -/

/-- The group `(.+)\n` of the single-property regex: the (nonempty) greedy
run of dot-matching characters at the head, required to be followed by a
newline.  As in `bannerValue`, no backtracked shorter run can satisfy the
trailing `\n`, so the greedy run is the only candidate. -/
def matchValueNL (s : List Char) : Option (List Char) :=
  let v := s.takeWhile jsDot
  let rest := s.drop v.length
  if v.isEmpty then none
  else if rest.head? = some '\n' then some v
  else none

/-- Leftmost occurrence of `label` followed by a nonempty newline-terminated
rest of line; returns that rest of line (group 2). -/
def scanMatch (label : List Char) : List Char → Option (List Char)
  | [] => none
  | c :: rest =>
    if label.isPrefixOf (c :: rest) then
      match matchValueNL ((c :: rest).drop label.length) with
      | some v => some v
      | none => scanMatch label rest
    else scanMatch label rest

/-- Per-line match of full-listing mode: leftmost occurrence of `label`
followed by a nonempty dot-run; returns that greedy run (group 2).  `(.+)`
stops before any line terminator remaining in the line (e.g. a CR), and an
occurrence whose next character is such a terminator does not match. -/
def scanMatchLine (label : List Char) : List Char → Option (List Char)
  | [] => none
  | c :: rest =>
    if label.isPrefixOf (c :: rest) then
      let v := ((c :: rest).drop label.length).takeWhile jsDot
      if v.isEmpty then scanMatchLine label rest else some v
    else scanMatchLine label rest

/-- JavaScript `output.split('\n')` over character lists:
`"a\nb\n"` splits into `["a", "b", ""]`. -/
def splitOnNL : List Char → List (List Char)
  | [] => [[]]
  | c :: rest =>
    if c = '\n' then [] :: splitOnNL rest
    else
      match splitOnNL rest with
      | [] => [[c]]
      | l :: ls => (c :: l) :: ls

/-- Full-listing mode scan over the split lines:
`.map(it => it.match(...)).find(it => it !== null)` then `matched[2]`. -/
def findPropertyInLines (property : String) (lines : List (List Char)) : Option String :=
  (((lines.map fun line => scanMatchLine (property ++ ": ").data line).find?
      fun it => it.isSome).join).map fun l => String.mk l

/-- The output-parsing step of `retrieveGradleProperty` (lines 184-194),
selected by the capability flag. -/
def retrievePropertyFromOutput (singlePropertySupported : Bool) (property output : String) :
    Option String :=
  if singlePropertySupported then
    (scanMatch (property ++ ": ").data output.data).map fun l => String.mk l
  else
    findPropertyInLines property (splitOnNL output.data)

/-! ## The four public operations as `Prog`s -/

/-- `retrieveGradleCLI` (source lines 203-205). -/
def retrieveGradleCLI (useGradlew : Bool) : String :=
  if useGradlew then "./gradlew" else "gradle"

/-- `verifyModule` (source lines 210-216): the root-module sentinel `:`
becomes the empty string, everything else passes through. -/
def verifyModule (module : String) : String :=
  if module = ":" then "" else module

/-- `fetchGradleVersion` (source lines 29-51): run `<cli> --version`, fail on
non-zero exit, then extract the version from the banner. -/
def fetchGradleVersion (useGradlew : Bool) (gradleProjectPath : String) : Prog String :=
  let command := retrieveGradleCLI useGradlew
  .exec ⟨command, ["--version"], gradleProjectPath⟩ fun versionOutput =>
    if versionOutput.exitCode ≠ 0 then
      .pure (.error (.executionError ("Failed to execute '" ++ command ++ " --version'")))
    else
      match extractGradleVersion versionOutput.stdout with
      | some version => .pure (.ok version)
      | none => .pure (.error (.parseError "Failed to extract gradle version"))

/-- `singlePropertySupport` (source lines 9-24): fetch the version, then apply
the capability gate. -/
def singlePropertySupport (useGradlew : Bool) (gradleProjectPath : String) : Prog Bool :=
  bindProg (fetchGradleVersion useGradlew gradleProjectPath) fun version =>
    .pure (singlePropertySupportOfVersion version)

/-- `retrieveGradleDependencies` (source lines 56-106).  `none` models the
`undefined` configuration. -/
def retrieveGradleDependencies (useGradlew : Bool) (gradleProjectPath : String)
    (gradleBuildModule : String) (gradleBuildConfiguration : Option String) : Prog String :=
  let command := retrieveGradleCLI useGradlew
  let module := verifyModule gradleBuildModule
  match gradleBuildConfiguration with
  | some cfg =>
    if cfg = "" then
      .exec ⟨command, ["--console", "plain", module ++ ":dependencies"], gradleProjectPath⟩
        fun dependencyList =>
          if dependencyList.exitCode ≠ 0 then
            .pure (.error (.executionError
              ("Failed to execute '" ++ command ++ " " ++ module ++ ":dependencies'")))
          else .pure (.ok dependencyList.stdout)
    else
      .exec ⟨command,
          ["--console", "plain", module ++ ":dependencies", "--configuration", cfg],
          gradleProjectPath⟩
        fun dependencyList =>
          if dependencyList.exitCode ≠ 0 then
            .pure (.error (.executionError
              ("Failed to execute '" ++ command ++ " " ++ module ++
                ":dependencies --configuration " ++ cfg ++ "'")))
          else .pure (.ok dependencyList.stdout)
  | none =>
    .exec ⟨command, ["--console", "plain", module ++ ":dependencies"], gradleProjectPath⟩
      fun dependencyList =>
        if dependencyList.exitCode ≠ 0 then
          .pure (.error (.executionError
            ("Failed to execute '" ++ command ++ " " ++ module ++ ":dependencies'")))
        else .pure (.ok dependencyList.stdout)

/-- `retrieveGradleBuildEnvironment` (source lines 111-127). -/
def retrieveGradleBuildEnvironment (useGradlew : Bool) (gradleProjectPath : String) :
    Prog String :=
  let command := retrieveGradleCLI useGradlew
  .exec ⟨command, ["--console", "plain", ":buildEnvironment"], gradleProjectPath⟩
    fun dependencyList =>
      if dependencyList.exitCode ≠ 0 then
        .pure (.error (.executionError ("Failed to execute '" ++ command ++ " :buildEnvironment'")))
      else .pure (.ok dependencyList.stdout)

/-- `retrieveGradleProperty` (source lines 153-198): probe the capability,
build the command for the selected mode, fail on non-zero exit, then parse;
an absent property is `ok none` (`undefined`), not an error. -/
def retrieveGradleProperty (useGradlew : Bool) (gradleProjectPath : String)
    (gradleBuildModule : String) (property : String) : Prog (Option String) :=
  bindProg (singlePropertySupport useGradlew gradleProjectPath) fun singlePropertySupported =>
    let command := retrieveGradleCLI useGradlew
    let module := verifyModule gradleBuildModule
    let commandArgs :=
      if singlePropertySupported then
        [module ++ ":properties", "-q", "--property", property]
      else
        [module ++ ":properties", "-q"]
    .exec ⟨command, commandArgs, gradleProjectPath⟩ fun propertyOutput =>
      if propertyOutput.exitCode ≠ 0 then
        .pure (.error (.executionError
          ("Failed to execute '" ++ command ++ " " ++ module ++ ":properties'")))
      else
        match retrievePropertyFromOutput singlePropertySupported property propertyOutput.stdout with
        | some value => .pure (.ok (some value))
        | none =>
          -- warning logged, then `undefined` returned
          .pure (.ok none)

/-- `retrieveGradleBuildPath` (source lines 132-138). -/
def retrieveGradleBuildPath (useGradlew : Bool) (gradleProjectPath : String)
    (gradleBuildModule : String) : Prog (Option String) :=
  retrieveGradleProperty useGradlew gradleProjectPath gradleBuildModule "buildFile"

/-- `retrieveGradleProjectName` (source lines 143-148). -/
def retrieveGradleProjectName (useGradlew : Bool) (gradleProjectPath : String) :
    Prog (Option String) :=
  retrieveGradleProperty useGradlew gradleProjectPath ":" "name"

/-! ## Helper lemmas about the scanning primitives -/

theorem takeWhile_append_drop (p : Char → Bool) (s : List Char) :
    s.takeWhile p ++ s.drop (s.takeWhile p).length = s := by
  induction s with
  | nil => simp
  | cons c rest ih =>
    by_cases h : p c
    · simp [List.takeWhile_cons, h, ih]
    · simp [List.takeWhile_cons, h]

theorem takeWhile_append_cons_of_stop {p : Char → Bool} {v : List Char} {b : Char}
    (suf : List Char) (hv : ∀ c ∈ v, p c) (hb : p b = false) :
    (v ++ b :: suf).takeWhile p = v := by
  induction v with
  | nil => simp [List.takeWhile_cons, hb]
  | cons c t ih =>
    simp [List.takeWhile_cons, hv c (by simp), ih fun x hx => hv x (by simp [hx])]

theorem matchValueNL_eq_some {s v : List Char} (h : matchValueNL s = some v) :
    v ≠ [] ∧ (∀ c ∈ v, jsDot c = true) ∧ ∃ suf, s = v ++ '\n' :: suf := by
  unfold matchValueNL at h
  by_cases he : (s.takeWhile jsDot).isEmpty
  · simp [he] at h
  · rw [if_neg he] at h
    by_cases hh : (s.drop (s.takeWhile jsDot).length).head? = some '\n'
    · rw [if_pos hh] at h
      injection h with h
      subst h
      refine ⟨by simpa [List.isEmpty_iff] using he, ?_, ?_⟩
      · intro c hc
        exact List.mem_takeWhile_imp hc
      · have hsplit := takeWhile_append_drop jsDot s
        cases hd : s.drop (s.takeWhile jsDot).length with
        | nil => rw [hd] at hh; simp at hh
        | cons a t =>
          rw [hd] at hh hsplit
          simp only [List.head?_cons, Option.some.injEq] at hh
          rw [hh] at hsplit
          exact ⟨t, hsplit.symm⟩
    · rw [if_neg hh] at h
      exact absurd h (by simp)

theorem matchValueNL_append {v : List Char} (suf : List Char) (hv : v ≠ [])
    (hnl : ∀ c ∈ v, jsDot c = true) : matchValueNL (v ++ '\n' :: suf) = some v := by
  have htw : (v ++ '\n' :: suf).takeWhile jsDot = v :=
    takeWhile_append_cons_of_stop suf hnl (by decide)
  simp [matchValueNL, htw, List.drop_left, List.isEmpty_iff, hv]

theorem scanMatch_eq_of_ne_nil {label s : List Char} (hs : s ≠ []) :
    scanMatch label s =
      if label.isPrefixOf s then
        match matchValueNL (s.drop label.length) with
        | some v => some v
        | none => scanMatch label s.tail
      else scanMatch label s.tail := by
  cases s with
  | nil => exact absurd rfl hs
  | cons c rest => rfl

theorem scanMatch_complete (label v : List Char) (hv : v ≠ [])
    (hnl : ∀ c ∈ v, jsDot c = true) :
    ∀ pre suf : List Char, (scanMatch label (pre ++ label ++ v ++ '\n' :: suf)).isSome := by
  intro pre
  induction pre with
  | nil =>
    intro suf
    have hs : label ++ v ++ '\n' :: suf ≠ [] := by
      cases label with
      | nil => cases v with
        | nil => exact absurd rfl hv
        | cons a t => simp
      | cons a t => simp
    rw [List.nil_append, List.append_assoc, scanMatch_eq_of_ne_nil (by rwa [List.append_assoc] at hs)]
    have hpre : label.isPrefixOf (label ++ (v ++ '\n' :: suf)) :=
      List.isPrefixOf_iff_prefix.mpr (List.prefix_append _ _)
    rw [if_pos hpre, List.drop_left, matchValueNL_append suf hv hnl]
    rfl
  | cons c t ih =>
    intro suf
    rw [show (c :: t) ++ label ++ v ++ '\n' :: suf = c :: (t ++ label ++ v ++ '\n' :: suf) by simp,
      scanMatch_eq_of_ne_nil (by simp)]
    by_cases hpre : label.isPrefixOf (c :: (t ++ label ++ v ++ '\n' :: suf))
    · rw [if_pos hpre]
      cases hm : matchValueNL ((c :: (t ++ label ++ v ++ '\n' :: suf)).drop label.length) with
      | some w => simp [hm]
      | none => simpa [hm] using ih suf
    · rw [if_neg hpre]
      exact ih suf

theorem scanMatch_sound (label : List Char) :
    ∀ s v : List Char, scanMatch label s = some v →
      v ≠ [] ∧ (∀ c ∈ v, jsDot c = true) ∧
        ∃ pre suf, s = pre ++ label ++ v ++ '\n' :: suf := by
  intro s
  induction s with
  | nil => intro v h; simp [scanMatch] at h
  | cons c rest ih =>
    intro v h
    rw [scanMatch_eq_of_ne_nil (by simp)] at h
    by_cases hpre : label.isPrefixOf (c :: rest)
    · rw [if_pos hpre] at h
      split at h
      · next w hm =>
        injection h with h
        subst h
        obtain ⟨hne, hnl, suf, hsuf⟩ := matchValueNL_eq_some hm
        refine ⟨hne, hnl, [], suf, ?_⟩
        obtain ⟨t, ht⟩ := List.isPrefixOf_iff_prefix.mp hpre
        rw [← ht] at hsuf ⊢
        rw [List.drop_left] at hsuf
        rw [hsuf]
        simp
      · next hm =>
        obtain ⟨hne, hnl, pre, suf, hsx⟩ := ih v h
        exact ⟨hne, hnl, c :: pre, suf, by simp_all⟩
    · rw [if_neg hpre] at h
      obtain ⟨hne, hnl, pre, suf, hsx⟩ := ih v h
      exact ⟨hne, hnl, c :: pre, suf, by simp_all⟩

theorem bannerScan_no_dash : ∀ out : List Char, '-' ∉ out → bannerScan out = none := by
  intro out
  induction out with
  | nil => intro _; rfl
  | cons c rest ih =>
    intro h
    have hc : c ≠ '-' := fun hx => h (by simp [hx])
    have hr : '-' ∉ rest := fun hx => h (by simp [hx])
    have hpre : (('-' :: '\n' :: "Gradle ".data).isPrefixOf (c :: rest)) = false := by
      by_contra hb
      obtain ⟨t, ht⟩ :=
        List.isPrefixOf_iff_prefix.mp (Bool.of_not_eq_false hb)
      injection ht with h1 _
      exact hc h1.symm
    simp [bannerScan, hpre, ih hr]

/-! ## Claim theorems -/

/-- C1: the capability gate of `singlePropertySupport` fails with a parse
error exactly when the version string cannot be coerced to a semantic
version, and for every coercible string it returns whether the coerced
version is at least 7.5.0 under major/minor/patch ordering; `"7.4.2"` gives
false, `"7.5.0"`, `"8.0"` and `"7.5.0-rc-1"` (coerced to 7.5.0) give true,
and the non-coercible `""` and `"not-a-version"` fail. -/
theorem capability_gate_spec :
    (∀ v : String, semverCoerce v = none →
      singlePropertySupportOfVersion v =
        .error (.parseError ("Failed to parse gradle version: " ++ v))) ∧
    (∀ (v : String) (sv : SemVer), semverCoerce v = some sv →
      singlePropertySupportOfVersion v =
        .ok (decide (7 < sv.major ∨
          (sv.major = 7 ∧ (5 < sv.minor ∨ (sv.minor = 5 ∧ 0 ≤ sv.patch)))))) ∧
    singlePropertySupportOfVersion "7.4.2" = .ok false ∧
    singlePropertySupportOfVersion "7.5.0" = .ok true ∧
    singlePropertySupportOfVersion "8.0" = .ok true ∧
    semverCoerce "7.5.0-rc-1" = some ⟨7, 5, 0⟩ ∧
    singlePropertySupportOfVersion "7.5.0-rc-1" = .ok true ∧
    singlePropertySupportOfVersion "" =
      .error (.parseError "Failed to parse gradle version: ") ∧
    singlePropertySupportOfVersion "not-a-version" =
      .error (.parseError "Failed to parse gradle version: not-a-version") := by
  refine ⟨?_, ?_, by decide, by decide, by decide, by decide, by decide, by decide, by decide⟩
  · intro v h
    simp [singlePropertySupportOfVersion, h]
  · intro v sv h
    simp only [singlePropertySupportOfVersion, h]
    congr 1
    rw [versionAtLeast750]
    exact decide_eq_decide.mpr (by omega)

/-- Witness for `capability_gate_spec` at the inputs `"9.9.9"` and `"x"`. -/
theorem capability_gate_spec_witness :
    singlePropertySupportOfVersion "9.9.9" = .ok true ∧
    singlePropertySupportOfVersion "x" =
      .error (.parseError ("Failed to parse gradle version: " ++ "x")) := by
  constructor
  · exact (capability_gate_spec.2.1 "9.9.9" ⟨9, 9, 9⟩ (by decide)).trans (by decide)
  · exact capability_gate_spec.1 "x" (by decide)

/-- C2 counterexample: the banner match is not a strict structural match.
The captured output `"a-\nGradle 7.6\n-b\n"` deviates from the documented
banner shape (neither the line before nor the line after the `Gradle` line
is a line of dashes), yet `fetchGradleVersion` returns `"7.6"` instead of
failing with a parse error. -/
theorem banner_match_not_strict :
    runProg (fetchGradleVersion false "p") [⟨0, "a-\nGradle 7.6\n-b\n", ""⟩] =
      some (.ok "7.6", [⟨"gradle", ["--version"], "p"⟩]) := by decide

/-- C2 (amended): on the well-formed banner `"------\nGradle 7.6\n------\n"`
`fetchGradleVersion` returns exactly `"7.6"`; on a banner missing the
closing dashed line it fails with a parse error, and any output containing
no dash at all fails; but the match only looks for the local pattern
dash, newline, `Gradle <version>` line, newline, dash, so deviations that
preserve that local pattern are still accepted. -/
theorem banner_match_behaviour :
    runProg (fetchGradleVersion false "p") [⟨0, "------\nGradle 7.6\n------\n", ""⟩] =
      some (.ok "7.6", [⟨"gradle", ["--version"], "p"⟩]) ∧
    runProg (fetchGradleVersion false "p") [⟨0, "------\nGradle 7.6\n", ""⟩] =
      some (.error (.parseError "Failed to extract gradle version"),
        [⟨"gradle", ["--version"], "p"⟩]) ∧
    (∀ output : String, '-' ∉ output.data → extractGradleVersion output = none) := by
  refine ⟨by decide, by decide, ?_⟩
  intro output h
  simp [extractGradleVersion, bannerScan_no_dash output.data h]

/-- Witness for `banner_match_behaviour`: a captured output with no dash. -/
theorem banner_match_behaviour_witness :
    extractGradleVersion "Gradle 7.6\n" = none :=
  banner_match_behaviour.2.2 "Gradle 7.6\n" (by decide)

/-- C3: in single-property mode the parse scans the whole output for the
label `<propertyName>: ` preceded by arbitrary text and returns everything
after the label up to the end of that line; `"buildFile"` applied to
`"buildFile: /a/b/c.gradle\n"` returns `"/a/b/c.gradle"`.  Completeness:
whenever the label occurs followed by a nonempty newline-terminated run of
dot-matching characters (no line terminators, matching `(.+)` exactly), a
value is returned.  Soundness: every returned value is the full rest of
line after an occurrence of the label — the captured run consists of
dot-matching characters and extends to the terminating newline, so a line
whose remainder contains an embedded terminator (e.g. a CR) never
matches. -/
theorem single_property_mode_parse :
    retrievePropertyFromOutput true "buildFile" "buildFile: /a/b/c.gradle\n" =
      some "/a/b/c.gradle" ∧
    (∀ (property : String) (pre v suf : List Char), v ≠ [] → (∀ c ∈ v, jsDot c = true) →
      (scanMatch (property ++ ": ").data
        (pre ++ (property ++ ": ").data ++ v ++ '\n' :: suf)).isSome = true) ∧
    (∀ property output v : String,
      retrievePropertyFromOutput true property output = some v →
      v ≠ "" ∧ (∀ c ∈ v.data, jsDot c = true) ∧
        ∃ pre suf, output.data = pre ++ (property ++ ": ").data ++ v.data ++ '\n' :: suf) := by
  refine ⟨by decide, ?_, ?_⟩
  · intro property pre v suf hv hnl
    exact scanMatch_complete (property ++ ": ").data v hv hnl pre suf
  · intro property output v h
    simp only [retrievePropertyFromOutput, if_true] at h
    rcases Option.map_eq_some'.mp h with ⟨w, hw, hv'⟩
    obtain ⟨hne, hnl, pre, suf, hs⟩ := scanMatch_sound _ _ _ hw
    subst hv'
    refine ⟨?_, hnl, pre, suf, hs⟩
    intro hv0
    exact hne (by simpa using congrArg String.data hv0)

/-- Witness for `single_property_mode_parse`: the label `"name: "` inside
`"hostname: v\n"`. -/
theorem single_property_mode_parse_witness :
    (scanMatch ("name" ++ ": ").data
      ("host".data ++ ("name" ++ ": ").data ++ ['v'] ++ '\n' :: [])).isSome = true ∧
    ("v" ≠ "" ∧ (∀ c ∈ "v".data, jsDot c = true) ∧
      ∃ pre suf, "hostname: v\n".data =
        pre ++ ("name" ++ ": ").data ++ "v".data ++ '\n' :: suf) :=
  ⟨single_property_mode_parse.2.1 "name" "host".data ['v'] [] (by decide) (by decide),
   single_property_mode_parse.2.2 "name" "hostname: v\n" "v" (by decide)⟩

/-- C4: in full-listing mode the output is split into lines, each line is
scanned independently top-to-bottom for the `<propertyName>: <value>`
pattern, and the value of the first matching line is returned; `"name"`
queried against outputs also containing `"buildFile: x.gradle"` returns
`"root"` regardless of the line's position, and when the same label occurs
on several lines the first occurrence is authoritative. -/
theorem full_listing_mode_first_match :
    retrievePropertyFromOutput false "name" "buildFile: x.gradle\nname: root\nother: y\n" =
      some "root" ∧
    retrievePropertyFromOutput false "name" "name: root\nbuildFile: x.gradle\n" = some "root" ∧
    retrievePropertyFromOutput false "name" "name: root\nname: second\n" = some "root" ∧
    (∀ (property : String) (pre post : List (List Char)) (line v : List Char),
      (∀ l ∈ pre, scanMatchLine (property ++ ": ").data l = none) →
      scanMatchLine (property ++ ": ").data line = some v →
      findPropertyInLines property (pre ++ line :: post) = some (String.mk v)) := by
  refine ⟨by decide, by decide, by decide, ?_⟩
  intro property pre post line v hpre hline
  induction pre with
  | nil =>
    rw [List.nil_append]
    unfold findPropertyInLines
    simp only [List.map_cons]
    rw [hline]
    simp [List.find?]
  | cons l t ih =>
    have hl := hpre l (List.mem_cons_self l t)
    have ht : ∀ x ∈ t, scanMatchLine (property ++ ": ").data x = none :=
      fun x hx => hpre x (List.mem_cons_of_mem l hx)
    have hstep : findPropertyInLines property ((l :: t) ++ line :: post) =
        findPropertyInLines property (t ++ line :: post) := by
      unfold findPropertyInLines
      rw [List.cons_append]
      simp only [List.map_cons]
      rw [hl]
      simp [List.find?]
    rw [hstep]
    exact ih ht

/-- Witness for `full_listing_mode_first_match`: a non-matching line before
the matching one. -/
theorem full_listing_mode_first_match_witness :
    findPropertyInLines "name" (["other: y".data] ++ "name: root".data :: []) =
      some (String.mk "root".data) :=
  full_listing_mode_first_match.2.2.2 "name" ["other: y".data] [] "name: root".data
    "root".data (by decide) (by decide)

/-- C5: a non-zero exit code from the underlying process invocation makes
each of the four public operations fail with an execution error, propagated
immediately: the issued invocation list stops at the failing call and no
partial result is returned.  For `retrieveGradleProperty` this holds for
both its embedded capability probe and the subsequent property query. -/
theorem nonzero_exit_execution_error :
    (∀ (u : Bool) (p : String) (r : ExecResult) (rs : List ExecResult), r.exitCode ≠ 0 →
      runProg (singlePropertySupport u p) (r :: rs) =
        some (.error (.executionError
            ("Failed to execute '" ++ retrieveGradleCLI u ++ " --version'")),
          [⟨retrieveGradleCLI u, ["--version"], p⟩])) ∧
    (∀ (u : Bool) (p m : String) (cfg : Option String) (r : ExecResult)
        (rs : List ExecResult), r.exitCode ≠ 0 →
      ∃ msg calls, runProg (retrieveGradleDependencies u p m cfg) (r :: rs) =
        some (.error (.executionError msg), calls) ∧ calls.length = 1) ∧
    (∀ (u : Bool) (p : String) (r : ExecResult) (rs : List ExecResult), r.exitCode ≠ 0 →
      runProg (retrieveGradleBuildEnvironment u p) (r :: rs) =
        some (.error (.executionError
            ("Failed to execute '" ++ retrieveGradleCLI u ++ " :buildEnvironment'")),
          [⟨retrieveGradleCLI u, ["--console", "plain", ":buildEnvironment"], p⟩])) ∧
    (∀ (u : Bool) (p m prop : String) (r : ExecResult) (rs : List ExecResult),
      r.exitCode ≠ 0 →
      runProg (retrieveGradleProperty u p m prop) (r :: rs) =
        some (.error (.executionError
            ("Failed to execute '" ++ retrieveGradleCLI u ++ " --version'")),
          [⟨retrieveGradleCLI u, ["--version"], p⟩])) ∧
    (∀ (u : Bool) (p m prop : String) (r1 r2 : ExecResult) (rs : List ExecResult)
        (ver : String) (b : Bool), r1.exitCode = 0 →
      extractGradleVersion r1.stdout = some ver →
      singlePropertySupportOfVersion ver = .ok b →
      r2.exitCode ≠ 0 →
      runProg (retrieveGradleProperty u p m prop) (r1 :: r2 :: rs) =
        some (.error (.executionError
            ("Failed to execute '" ++ retrieveGradleCLI u ++ " " ++ verifyModule m ++
              ":properties'")),
          [⟨retrieveGradleCLI u, ["--version"], p⟩,
           ⟨retrieveGradleCLI u,
             if b then [verifyModule m ++ ":properties", "-q", "--property", prop]
             else [verifyModule m ++ ":properties", "-q"], p⟩])) := by
  refine ⟨?_, ?_, ?_, ?_, ?_⟩
  · intro u p r rs h
    simp [singlePropertySupport, fetchGradleVersion, bindProg, runProg, h]
  · intro u p m cfg r rs h
    match cfg with
    | none =>
      refine ⟨"Failed to execute '" ++ retrieveGradleCLI u ++ " " ++ verifyModule m ++
          ":dependencies'",
        [⟨retrieveGradleCLI u, ["--console", "plain", verifyModule m ++ ":dependencies"], p⟩],
        ?_, rfl⟩
      simp [retrieveGradleDependencies, runProg, h]
    | some c =>
      by_cases hc : c = ""
      · subst hc
        refine ⟨"Failed to execute '" ++ retrieveGradleCLI u ++ " " ++ verifyModule m ++
            ":dependencies'",
          [⟨retrieveGradleCLI u, ["--console", "plain", verifyModule m ++ ":dependencies"], p⟩],
          ?_, rfl⟩
        simp [retrieveGradleDependencies, runProg, h]
      · refine ⟨"Failed to execute '" ++ retrieveGradleCLI u ++ " " ++ verifyModule m ++
            ":dependencies --configuration " ++ c ++ "'",
          [⟨retrieveGradleCLI u,
            ["--console", "plain", verifyModule m ++ ":dependencies", "--configuration", c],
            p⟩],
          ?_, rfl⟩
        simp [retrieveGradleDependencies, runProg, h, hc]
  · intro u p r rs h
    simp [retrieveGradleBuildEnvironment, runProg, h]
  · intro u p m prop r rs h
    simp [retrieveGradleProperty, singlePropertySupport, fetchGradleVersion, bindProg,
      runProg, h]
  · intro u p m prop r1 r2 rs ver b h1 hver hb h2
    simp [retrieveGradleProperty, singlePropertySupport, fetchGradleVersion, bindProg,
      runProg, h1, hver, hb, h2]

/-- Witness for `nonzero_exit_execution_error` at concrete failing results. -/
theorem nonzero_exit_execution_error_witness :
    runProg (singlePropertySupport false "p") [⟨1, "", "boom"⟩] =
      some (.error (.executionError
          ("Failed to execute '" ++ retrieveGradleCLI false ++ " --version'")),
        [⟨retrieveGradleCLI false, ["--version"], "p"⟩]) ∧
    (∃ msg calls,
      runProg (retrieveGradleDependencies false "p" "app" (some "compile")) [⟨1, "", ""⟩] =
        some (.error (.executionError msg), calls) ∧ calls.length = 1) ∧
    runProg (retrieveGradleBuildEnvironment false "p") [⟨1, "", ""⟩] =
      some (.error (.executionError
          ("Failed to execute '" ++ retrieveGradleCLI false ++ " :buildEnvironment'")),
        [⟨retrieveGradleCLI false, ["--console", "plain", ":buildEnvironment"], "p"⟩]) ∧
    runProg (retrieveGradleProperty false "p" "app" "name") [⟨3, "", ""⟩] =
      some (.error (.executionError
          ("Failed to execute '" ++ retrieveGradleCLI false ++ " --version'")),
        [⟨retrieveGradleCLI false, ["--version"], "p"⟩]) ∧
    runProg (retrieveGradleProperty false "p" "app" "name")
        [⟨0, "------\nGradle 7.6\n------\n", ""⟩, ⟨2, "", ""⟩] =
      some (.error (.executionError
          ("Failed to execute '" ++ retrieveGradleCLI false ++ " " ++ verifyModule "app" ++
            ":properties'")),
        [⟨retrieveGradleCLI false, ["--version"], "p"⟩,
         ⟨retrieveGradleCLI false,
           if true then [verifyModule "app" ++ ":properties", "-q", "--property", "name"]
           else [verifyModule "app" ++ ":properties", "-q"], "p"⟩]) :=
  ⟨nonzero_exit_execution_error.1 false "p" ⟨1, "", "boom"⟩ [] (by decide),
   nonzero_exit_execution_error.2.1 false "p" "app" (some "compile") ⟨1, "", ""⟩ [] (by decide),
   nonzero_exit_execution_error.2.2.1 false "p" ⟨1, "", ""⟩ [] (by decide),
   nonzero_exit_execution_error.2.2.2.1 false "p" "app" "name" ⟨3, "", ""⟩ [] (by decide),
   nonzero_exit_execution_error.2.2.2.2 false "p" "app" "name"
     ⟨0, "------\nGradle 7.6\n------\n", ""⟩ ⟨2, "", ""⟩ [] "7.6" true
     (by decide) (by decide) (by decide) (by decide)⟩

/-- C6: a successful (zero-exit) property query whose output contains no
line matching the `<propertyName>: <value>` pattern returns the absent
value (`none`) without error, in both single-property and full-listing
mode. -/
theorem property_absent_is_not_error :
    (∀ (u : Bool) (p m prop : String) (r1 r2 : ExecResult) (rs : List ExecResult)
        (ver : String) (b : Bool),
      r1.exitCode = 0 → extractGradleVersion r1.stdout = some ver →
      singlePropertySupportOfVersion ver = .ok b → r2.exitCode = 0 →
      retrievePropertyFromOutput b prop r2.stdout = none →
      runProg (retrieveGradleProperty u p m prop) (r1 :: r2 :: rs) =
        some (.ok none,
          [⟨retrieveGradleCLI u, ["--version"], p⟩,
           ⟨retrieveGradleCLI u,
             if b then [verifyModule m ++ ":properties", "-q", "--property", prop]
             else [verifyModule m ++ ":properties", "-q"], p⟩])) ∧
    runProg (retrieveGradleProperty false "p" ":" "name")
        [⟨0, "------\nGradle 7.6\n------\n", ""⟩, ⟨0, "foo: bar\n", ""⟩] =
      some (.ok none,
        [⟨"gradle", ["--version"], "p"⟩,
         ⟨"gradle", [":properties", "-q", "--property", "name"], "p"⟩]) ∧
    runProg (retrieveGradleProperty false "p" ":" "name")
        [⟨0, "------\nGradle 7.4.2\n------\n", ""⟩, ⟨0, "foo: bar\n", ""⟩] =
      some (.ok none,
        [⟨"gradle", ["--version"], "p"⟩, ⟨"gradle", [":properties", "-q"], "p"⟩]) := by
  refine ⟨?_, by decide, by decide⟩
  intro u p m prop r1 r2 rs ver b h1 hver hb h2 habsent
  simp [retrieveGradleProperty, singlePropertySupport, fetchGradleVersion, bindProg,
    runProg, h1, hver, hb, h2, habsent]

/-- Witness for `property_absent_is_not_error` at a concrete absent query. -/
theorem property_absent_is_not_error_witness :
    runProg (retrieveGradleProperty true "q" "app" "buildFile")
        [⟨0, "------\nGradle 8.1\n------\n", ""⟩, ⟨0, "name: app\n", ""⟩] =
      some (.ok none,
        [⟨retrieveGradleCLI true, ["--version"], "q"⟩,
         ⟨retrieveGradleCLI true,
           if true then [verifyModule "app" ++ ":properties", "-q", "--property", "buildFile"]
           else [verifyModule "app" ++ ":properties", "-q"], "q"⟩]) :=
  property_absent_is_not_error.1 true "q" "app" "buildFile"
    ⟨0, "------\nGradle 8.1\n------\n", ""⟩ ⟨0, "name: app\n", ""⟩ [] "8.1" true
    (by decide) (by decide) (by decide) (by decide) (by decide)

/-- C7: the root-module sentinel `":"` is normalized to the empty string
before being embedded in a command path and every other module string is
embedded as-is: module `":"` yields the task path `":properties"` (no
double colon) and `"app"` yields `"app:properties"`; the normalization is
applied in both property-retrieval modes and in the dependency-listing
operation. -/
theorem module_sentinel_normalization :
    verifyModule ":" = "" ∧
    (∀ m : String, m ≠ ":" → verifyModule m = m) ∧
    verifyModule ":" ++ ":properties" = ":properties" ∧
    verifyModule "app" ++ ":properties" = "app:properties" ∧
    (∀ (u : Bool) (p m prop : String) (r1 r2 : ExecResult) (rs : List ExecResult)
        (ver : String) (b : Bool),
      r1.exitCode = 0 → extractGradleVersion r1.stdout = some ver →
      singlePropertySupportOfVersion ver = .ok b →
      ∃ res, runProg (retrieveGradleProperty u p m prop) (r1 :: r2 :: rs) =
        some (res,
          [⟨retrieveGradleCLI u, ["--version"], p⟩,
           ⟨retrieveGradleCLI u,
             if b then [verifyModule m ++ ":properties", "-q", "--property", prop]
             else [verifyModule m ++ ":properties", "-q"], p⟩])) ∧
    (∀ (u : Bool) (p m : String) (r : ExecResult) (rs : List ExecResult),
      ∃ res, runProg (retrieveGradleDependencies u p m none) (r :: rs) =
        some (res,
          [⟨retrieveGradleCLI u,
            ["--console", "plain", verifyModule m ++ ":dependencies"], p⟩])) := by
  refine ⟨rfl, ?_, by decide, by decide, ?_, ?_⟩
  · intro m h
    simp [verifyModule, h]
  · intro u p m prop r1 r2 rs ver b h1 hver hb
    by_cases h2 : r2.exitCode = 0
    · cases hm : retrievePropertyFromOutput b prop r2.stdout with
      | some v =>
        exact ⟨.ok (some v), by simp [retrieveGradleProperty, singlePropertySupport,
          fetchGradleVersion, bindProg, runProg, h1, hver, hb, h2, hm]⟩
      | none =>
        exact ⟨.ok none, by simp [retrieveGradleProperty, singlePropertySupport,
          fetchGradleVersion, bindProg, runProg, h1, hver, hb, h2, hm]⟩
    · exact ⟨.error (.executionError
          ("Failed to execute '" ++ retrieveGradleCLI u ++ " " ++ verifyModule m ++
            ":properties'")),
        by simp [retrieveGradleProperty, singlePropertySupport, fetchGradleVersion,
          bindProg, runProg, h1, hver, hb, h2]⟩
  · intro u p m r rs
    by_cases h : r.exitCode = 0
    · exact ⟨.ok r.stdout, by simp [retrieveGradleDependencies, runProg, h]⟩
    · exact ⟨.error (.executionError
          ("Failed to execute '" ++ retrieveGradleCLI u ++ " " ++ verifyModule m ++
            ":dependencies'")),
        by simp [retrieveGradleDependencies, runProg, h]⟩

/-- Witness for `module_sentinel_normalization` on the root module and a
named module. -/
theorem module_sentinel_normalization_witness :
    verifyModule "app" = "app" ∧
    (∃ res, runProg (retrieveGradleProperty false "p" ":" "name")
        [⟨0, "------\nGradle 7.6\n------\n", ""⟩, ⟨0, "name: root\n", ""⟩] =
      some (res,
        [⟨retrieveGradleCLI false, ["--version"], "p"⟩,
         ⟨retrieveGradleCLI false,
           if true then [verifyModule ":" ++ ":properties", "-q", "--property", "name"]
           else [verifyModule ":" ++ ":properties", "-q"], "p"⟩])) ∧
    (∃ res, runProg (retrieveGradleDependencies false "p" ":" none) [⟨0, "deps", ""⟩] =
      some (res,
        [⟨retrieveGradleCLI false,
          ["--console", "plain", verifyModule ":" ++ ":dependencies"], "p"⟩])) :=
  ⟨module_sentinel_normalization.2.1 "app" (by decide),
   module_sentinel_normalization.2.2.2.2.1 false "p" ":" "name"
     ⟨0, "------\nGradle 7.6\n------\n", ""⟩ ⟨0, "name: root\n", ""⟩ [] "7.6" true
     (by decide) (by decide) (by decide),
   module_sentinel_normalization.2.2.2.2.2 false "p" ":" ⟨0, "deps", ""⟩ []⟩

/-- C8 counterexample: `retrieveGradleProperty` does not issue exactly one
external process invocation per call — a successful property retrieval
issues two invocations: the embedded capability probe and the property
query. -/
theorem fetch_property_two_invocations :
    (runProg (retrieveGradleProperty false "p" ":" "name")
        [⟨0, "------\nGradle 7.6\n------\n", ""⟩, ⟨0, "name: root\n", ""⟩]).map
      (fun x => (x.1, x.2.length)) = some (.ok (some "root"), 2) := by decide

/-- C8 (amended): `singlePropertySupport`, `retrieveGradleDependencies` and
`retrieveGradleBuildEnvironment` issue exactly one external process
invocation per call; `retrieveGradleProperty` issues the capability-probe
invocation plus, when the probe succeeds, exactly one property invocation
(two in total), and only the probe invocation when the probe fails; no
invocation is retried. -/
theorem invocation_counts :
    (∀ (u : Bool) (p : String) (r : ExecResult) (rs : List ExecResult),
      (runProg (singlePropertySupport u p) (r :: rs)).map (fun x => x.2.length) = some 1) ∧
    (∀ (u : Bool) (p m : String) (cfg : Option String) (r : ExecResult)
        (rs : List ExecResult),
      (runProg (retrieveGradleDependencies u p m cfg) (r :: rs)).map
        (fun x => x.2.length) = some 1) ∧
    (∀ (u : Bool) (p : String) (r : ExecResult) (rs : List ExecResult),
      (runProg (retrieveGradleBuildEnvironment u p) (r :: rs)).map
        (fun x => x.2.length) = some 1) ∧
    (∀ (u : Bool) (p m prop : String) (r1 r2 : ExecResult) (rs : List ExecResult)
        (ver : String) (b : Bool),
      r1.exitCode = 0 → extractGradleVersion r1.stdout = some ver →
      singlePropertySupportOfVersion ver = .ok b →
      (runProg (retrieveGradleProperty u p m prop) (r1 :: r2 :: rs)).map
        (fun x => x.2.length) = some 2) ∧
    (∀ (u : Bool) (p m prop : String) (r1 : ExecResult) (rs : List ExecResult),
      (r1.exitCode ≠ 0 ∨ extractGradleVersion r1.stdout = none ∨
        (∃ ver, extractGradleVersion r1.stdout = some ver ∧ semverCoerce ver = none)) →
      (runProg (retrieveGradleProperty u p m prop) (r1 :: rs)).map
        (fun x => x.2.length) = some 1) := by
  refine ⟨?_, ?_, ?_, ?_, ?_⟩
  · intro u p r rs
    by_cases h : r.exitCode = 0
    · cases hv : extractGradleVersion r.stdout with
      | some ver => simp [singlePropertySupport, fetchGradleVersion, bindProg, runProg, h, hv]
      | none => simp [singlePropertySupport, fetchGradleVersion, bindProg, runProg, h, hv]
    · simp [singlePropertySupport, fetchGradleVersion, bindProg, runProg, h]
  · intro u p m cfg r rs
    cases cfg with
    | none =>
      by_cases h : r.exitCode = 0 <;> simp [retrieveGradleDependencies, runProg, h]
    | some c =>
      by_cases hc : c = ""
      · subst hc
        by_cases h : r.exitCode = 0 <;> simp [retrieveGradleDependencies, runProg, h]
      · by_cases h : r.exitCode = 0 <;> simp [retrieveGradleDependencies, runProg, h, hc]
  · intro u p r rs
    by_cases h : r.exitCode = 0 <;> simp [retrieveGradleBuildEnvironment, runProg, h]
  · intro u p m prop r1 r2 rs ver b h1 hver hb
    by_cases h2 : r2.exitCode = 0
    · cases hm : retrievePropertyFromOutput b prop r2.stdout with
      | some v => simp [retrieveGradleProperty, singlePropertySupport, fetchGradleVersion,
          bindProg, runProg, h1, hver, hb, h2, hm]
      | none => simp [retrieveGradleProperty, singlePropertySupport, fetchGradleVersion,
          bindProg, runProg, h1, hver, hb, h2, hm]
    · simp [retrieveGradleProperty, singlePropertySupport, fetchGradleVersion, bindProg,
        runProg, h1, hver, hb, h2]
  · intro u p m prop r1 rs hfail
    rcases hfail with h1 | hnone | ⟨ver, hver, hcoerce⟩
    · simp [retrieveGradleProperty, singlePropertySupport, fetchGradleVersion, bindProg,
        runProg, h1]
    · by_cases h1 : r1.exitCode = 0
      · simp [retrieveGradleProperty, singlePropertySupport, fetchGradleVersion, bindProg,
          runProg, h1, hnone]
      · simp [retrieveGradleProperty, singlePropertySupport, fetchGradleVersion, bindProg,
          runProg, h1]
    · by_cases h1 : r1.exitCode = 0
      · simp [retrieveGradleProperty, singlePropertySupport, fetchGradleVersion, bindProg,
          runProg, h1, hver, singlePropertySupportOfVersion, hcoerce]
      · simp [retrieveGradleProperty, singlePropertySupport, fetchGradleVersion, bindProg,
          runProg, h1]

/-- Witness for `invocation_counts` at concrete runs. -/
theorem invocation_counts_witness :
    (runProg (singlePropertySupport false "p") [⟨0, "x", ""⟩]).map
      (fun x => x.2.length) = some 1 ∧
    (runProg (retrieveGradleProperty false "p" ":" "name")
        [⟨0, "------\nGradle 7.6\n------\n", ""⟩, ⟨0, "name: root\n", ""⟩]).map
      (fun x => x.2.length) = some 2 ∧
    (runProg (retrieveGradleProperty false "p" ":" "name") [⟨0, "no banner", ""⟩]).map
      (fun x => x.2.length) = some 1 :=
  ⟨invocation_counts.1 false "p" ⟨0, "x", ""⟩ [],
   invocation_counts.2.2.2.1 false "p" ":" "name" ⟨0, "------\nGradle 7.6\n------\n", ""⟩
     ⟨0, "name: root\n", ""⟩ [] "7.6" true (by decide) (by decide) (by decide),
   invocation_counts.2.2.2.2 false "p" ":" "name" ⟨0, "no banner", ""⟩ []
     (Or.inr (Or.inl (by decide)))⟩

/-- C9: supplying a non-empty dependency configuration appends the
`--configuration` flag and its value to the invoked command line, while an
empty-string configuration is treated exactly like an absent one: the flag
is omitted and the whole operation is identical to the no-configuration
invocation. -/
theorem configuration_flag_handling :
    (∀ (u : Bool) (p m : String),
      retrieveGradleDependencies u p m (some "") = retrieveGradleDependencies u p m none) ∧
    (∀ (u : Bool) (p m c : String) (r : ExecResult) (rs : List ExecResult), c ≠ "" →
      ∃ res, runProg (retrieveGradleDependencies u p m (some c)) (r :: rs) =
        some (res,
          [⟨retrieveGradleCLI u,
            ["--console", "plain", verifyModule m ++ ":dependencies", "--configuration", c],
            p⟩])) ∧
    (∀ (u : Bool) (p m : String) (r : ExecResult) (rs : List ExecResult),
      ∃ res, runProg (retrieveGradleDependencies u p m none) (r :: rs) =
        some (res,
          [⟨retrieveGradleCLI u,
            ["--console", "plain", verifyModule m ++ ":dependencies"], p⟩])) := by
  refine ⟨?_, ?_, ?_⟩
  · intro u p m
    rfl
  · intro u p m c r rs hc
    by_cases h : r.exitCode = 0
    · exact ⟨.ok r.stdout, by simp [retrieveGradleDependencies, runProg, h, hc]⟩
    · exact ⟨.error (.executionError
          ("Failed to execute '" ++ retrieveGradleCLI u ++ " " ++ verifyModule m ++
            ":dependencies --configuration " ++ c ++ "'")),
        by simp [retrieveGradleDependencies, runProg, h, hc]⟩
  · intro u p m r rs
    by_cases h : r.exitCode = 0
    · exact ⟨.ok r.stdout, by simp [retrieveGradleDependencies, runProg, h]⟩
    · exact ⟨.error (.executionError
          ("Failed to execute '" ++ retrieveGradleCLI u ++ " " ++ verifyModule m ++
            ":dependencies'")),
        by simp [retrieveGradleDependencies, runProg, h]⟩

/-- Witness for `configuration_flag_handling` with configuration
`"testCompile"`. -/
theorem configuration_flag_handling_witness :
    ∃ res,
      runProg (retrieveGradleDependencies false "p" "app" (some "testCompile"))
        [⟨0, "deps", ""⟩] =
      some (res,
        [⟨retrieveGradleCLI false,
          ["--console", "plain", verifyModule "app" ++ ":dependencies",
            "--configuration", "testCompile"], "p"⟩]) :=
  configuration_flag_handling.2.1 false "p" "app" "testCompile" ⟨0, "deps", ""⟩ []
    (by decide)

/-- C10: property-label matching is substring-based rather than anchored at
a line start or word boundary: the successful output `"hostname: h\n"`
contains no line for the property `"name"` itself, yet querying `"name"`
returns `"h"` (the value of the `"hostname"` line) instead of absent, in
both single-property and full-listing modes, at the parse level and through
`retrieveGradleProperty`. -/
theorem substring_label_matching :
    retrievePropertyFromOutput true "name" "hostname: h\n" = some "h" ∧
    retrievePropertyFromOutput false "name" "hostname: h\n" = some "h" ∧
    runProg (retrieveGradleProperty false "p" ":" "name")
        [⟨0, "------\nGradle 7.6\n------\n", ""⟩, ⟨0, "hostname: h\n", ""⟩] =
      some (.ok (some "h"),
        [⟨"gradle", ["--version"], "p"⟩,
         ⟨"gradle", [":properties", "-q", "--property", "name"], "p"⟩]) ∧
    runProg (retrieveGradleProperty false "p" ":" "name")
        [⟨0, "------\nGradle 7.4.2\n------\n", ""⟩, ⟨0, "hostname: h\n", ""⟩] =
      some (.ok (some "h"),
        [⟨"gradle", ["--version"], "p"⟩, ⟨"gradle", [":properties", "-q"], "p"⟩]) :=
  ⟨by decide, by decide, by decide, by decide⟩
